import Mathlib

/-!
Verification of the golang-redis-mock repository: a shallow embedding of the
RESP parser (`resp` package), the string-command dispatcher (`commands`
package) and the storage layer (`storage` package), together with theorems
settling the specification claims.

Modelling conventions:
* Go byte slices and Go strings are both modelled as `List Nat` (`GoStr`),
  one entry per byte; all strings appearing here are ASCII so the byte value
  equals the code point.
* Go `int` (64-bit) is modelled as `Int`; `strconv.Atoi` is embedded with its
  64-bit range check.
* Go panics are explicit: parsers return a `PRes` value that is either a
  result or a panic, and the dispatcher returns `Except GoPanic`.
* The parser mutates its input buffer (it overwrites `$`/`*` tag bytes with
  `:`).  Each parser therefore also returns the mutated contents of the byte
  slice it was given; a caller splices that into its own view of the buffer.
-/

/-- Go strings / byte slices: a list of byte values. -/
abbrev GoStr := List Nat

/-- Byte list of an ASCII string literal (code point = byte value). -/
def gostr (s : String) : GoStr := s.data.map (fun c => c.toNat)

/-- `'\r'` -/
def crByte : Nat := 13
/-- `'\n'` -/
def nlByte : Nat := 10
/-- `' '` -/
def whitespaceByte : Nat := 32
/-- `'+'` -/
def stringStartByte : Nat := 43
/-- `':'` -/
def integerStartByte : Nat := 58
/-- `'$'` -/
def bulkStringStartByte : Nat := 36
/-- `'*'` -/
def arrayStartByte : Nat := 42
/-- `'-'` -/
def errorStartByte : Nat := 45

/-- Decimal digits, most significant first; structural recursion on a fuel
argument so that closed instances compute by `decide`.  `fuel > n` suffices
since the number of recursive steps is at most the digit count. -/
def natToDecimalAux : Nat → Nat → GoStr
  | 0, _ => []
  | fuel + 1, n =>
    if n < 10 then [48 + n]
    else natToDecimalAux fuel (n / 10) ++ [48 + n % 10]

/-- Decimal digits of a natural number, most significant first, as bytes. -/
def natToDecimal (n : Nat) : GoStr := natToDecimalAux (n + 1) n

/-- `strconv.Itoa`: decimal rendering of a (signed) integer. -/
def intToDecimal (i : Int) : GoStr :=
  if i < 0 then 45 :: natToDecimal (-i).toNat else natToDecimal i.toNat

/-- Value of a decimal digit byte, if it is one. -/
def digitVal (c : Nat) : Option Nat :=
  if 48 ≤ c ∧ c ≤ 57 then some (c - 48) else none

/-- Accumulating decimal parse of a run of digit bytes. -/
def parseDigitsAux : GoStr → Nat → Option Nat
  | [], acc => some acc
  | c :: rest, acc =>
    match digitVal c with
    | some d => parseDigitsAux rest (acc * 10 + d)
    | none => none

/-- `strconv.Atoi`: optional sign, a nonempty digit run, 64-bit range check.
`none` models the error return (the Go callers panic on it). -/
def goAtoi (s : GoStr) : Option Int :=
  match s with
  | [] => none
  | c :: rest =>
    let signed : Bool × GoStr :=
      if c = 45 then (true, rest) else if c = 43 then (false, rest) else (false, s)
    match signed.2 with
    | [] => none
    | ds =>
      match parseDigitsAux ds 0 with
      | none => none
      | some n =>
        let v : Int := if signed.1 then -(n : Int) else (n : Int)
        if v < -(2 ^ 63) ∨ 2 ^ 63 - 1 < v then none else some v

/-- Go's integer-to-string conversion `string(r)`: the UTF-8 encoding of the
code point `r`, with the replacement character U+FFFD for surrogates and
out-of-range values.  The parsers apply it to single bytes
(`str += string(c)`), so a byte in 128–255 contributes TWO bytes to the
accumulated string — this inflation is what makes `len(str)` exceed the
payload byte count for non-ASCII input. -/
def goRuneToString (r : Nat) : GoStr :=
  if 55296 ≤ r ∧ r ≤ 57343 then [239, 191, 189]
  else if 1114111 < r then [239, 191, 189]
  else if r < 128 then [r]
  else if r < 2048 then [192 + r / 64, 128 + r % 64]
  else if r < 65536 then [224 + r / 4096, 128 + r / 64 % 64, 128 + r % 64]
  else [240 + r / 262144, 128 + r / 4096 % 64, 128 + r / 64 % 64, 128 + r % 64]

example : gostr "GET" = [71, 69, 84] := by decide
example : goRuneToString 200 = [195, 136] := by decide
example : natToDecimal 1048576 = gostr "1048576" := by decide
example : goAtoi (gostr "-42") = some (-42) := by decide
example : goAtoi (gostr "4a") = none := by decide

/-! ## RESP value model (resp/types.go) -/

/-- `resp.RedisError`: error code plus human-readable message. -/
structure RedisError where
  ecode : GoStr
  message : GoStr
deriving DecidableEq, Repr

/-- `resp.DefaultErrorKeyword` -/
def DefaultErrorKeyword : GoStr := gostr "ERR"

/-- `resp.InvalidByteSeq` error code. -/
def InvalidByteSeq : GoStr := gostr "IVBYSEQ"

/-- `resp.NewRedisError` -/
def NewRedisError (ecode message : GoStr) : RedisError := ⟨ecode, message⟩

/-- `resp.NewDefaultRedisError`: a `RedisError` with the default `ERR` code
(constructor of the `resp` package used throughout `commands`). -/
def NewDefaultRedisError (message : GoStr) : RedisError :=
  ⟨DefaultErrorKeyword, message⟩

/-- `resp.EmptyRedisError`: the zero value used as the "no error" sentinel. -/
def EmptyRedisError : RedisError := ⟨[], []⟩

/-- `RedisError.ToString`: renders as code `{` message `}` (bytes 123 / 125). -/
def RedisError.ToString (em : RedisError) : GoStr :=
  em.ecode ++ [123] ++ em.message ++ [125]

/-- `resp.MaxBulkSizeLength` = 1 MiB. -/
def MaxBulkSizeLength : Nat := 1 * 1024 * 1024

/-- `resp.BulkString`: a possibly-null binary-safe string. -/
structure BulkString where
  isNullValue : Bool
  value : GoStr
deriving DecidableEq, Repr

/-- `resp.NewNullBulkString` -/
def NewNullBulkString : BulkString := ⟨true, []⟩

/-- `resp.NewBulkString`: rejects payloads longer than `MaxBulkSizeLength`
with an error value (`.error` carries the Go error message; `string(strLen)`
in the source converts the length to the UTF-8 encoding of that code point,
`goRuneToString`). -/
def NewBulkString (str : GoStr) : Except GoStr BulkString :=
  if str.length > MaxBulkSizeLength then
    .error (gostr "Cannot allocate a string of length "
      ++ goRuneToString str.length
      ++ gostr " because it exceeds max allowed size of 1MB")
  else .ok ⟨false, str⟩

/-- The non-array RESP data types that can appear as an `Array` element or a
command argument (`resp.String`, `resp.RedisError`, `resp.Integer`,
`resp.BulkString` as implementors of `resp.IDataType`).  The parser never
places an `Array` inside an `Array` (the element switch panics on a `*` tag),
so nested arrays are not modelled. -/
inductive IDataType where
  | rstr : GoStr → IDataType
  | rerr : RedisError → IDataType
  | rint : Int → IDataType
  | rbulk : BulkString → IDataType
deriving DecidableEq, Repr

/-- `ToString` of the element data types (the `render()` of the spec):
`String` → its value, `Integer` → decimal, `RedisError` → code-brace-message,
null `BulkString` → `(nil)`, other `BulkString` → its bytes. -/
def IDataType.ToString : IDataType → GoStr
  | .rstr s => s
  | .rerr e => e.ToString
  | .rint i => intToDecimal i
  | .rbulk b => if b.isNullValue then gostr "(nil)" else b.value

/-- `resp.Array`: a sequence of item slots.  A slot holds `none` exactly when
the underlying Go slice still holds a nil `IDataType` interface value
(`make([]IDataType, n)` initialises every slot to nil). -/
structure RArray where
  items : List (Option IDataType)
deriving DecidableEq, Repr

/-- `Array.GetNumberOfItems` -/
def RArray.GetNumberOfItems (ra : RArray) : Nat := ra.items.length

/-- `resp.NewArray`: rejects a negative declared size with an error value. -/
def NewArray (numberOfItems : Int) : Except GoStr RArray :=
  if numberOfItems < 0 then
    .error (gostr "Cannot allocate Array with size " ++ intToDecimal numberOfItems
      ++ gostr ", size has to be > 0")
  else .ok ⟨List.replicate numberOfItems.toNat none⟩

/-- `Array.SetItemAtIndex` (in-bounds use only, as in the parser loop). -/
def RArray.SetItemAtIndex (ra : RArray) (index : Nat) (dt : IDataType) : RArray :=
  ⟨ra.items.set index (some dt)⟩

/-! ## Go panics and parser results -/

/-- The values Go panics carry in this code base, as seen by the top-level
`recover`: `resp.RedisError` values (the byte-stream assertions), plain
strings (all other explicit `panic("...")` calls), Go `error` values
(`panic(err)`), and runtime faults (index / slice out of range, nil-interface
method call). -/
inductive GoPanic where
  | redisError : RedisError → GoPanic
  | strPanic : GoStr → GoPanic
  | errValue : GoStr → GoPanic
  | indexOutOfRange : GoPanic
  | sliceOutOfRange : Nat → Nat → GoPanic
  | nilDereference : GoPanic
deriving DecidableEq, Repr

/-- The conversion performed by the `recover` block of
`ParseRedisClientRequest`: `RedisError` panics pass through, string panics
get the default `ERR` code, anything else goes through
`NewDefaultRedisError(fmt.Sprint(r))` (for an `error` value `fmt.Sprint`
yields its message).  `sliceOutOfRange lo n` is a slice `bytes[lo:]` past
the length `n`, rendered with its bounds as Go does.  `indexOutOfRange` and
`nilDereference` arise only in the dispatcher, which has no `recover` — the
program crashes before any rendering — so their message text is never
observable and the index/length suffix Go would print is not carried. -/
def panicToRedisError : GoPanic → RedisError
  | .redisError re => re
  | .strPanic s => NewRedisError DefaultErrorKeyword s
  | .errValue m => NewDefaultRedisError m
  | .indexOutOfRange => NewDefaultRedisError (gostr "runtime error: index out of range")
  | .sliceOutOfRange lo n =>
      NewDefaultRedisError (gostr "runtime error: slice bounds out of range ["
        ++ natToDecimal lo ++ gostr ":" ++ natToDecimal n ++ gostr "]")
  | .nilDereference =>
      NewDefaultRedisError (gostr "runtime error: invalid memory address or nil pointer dereference")

/-- Result of a parser call on a byte slice: either a value together with the
number of bytes read, or a panic.  Either way the final contents of the byte
slice the parser was given are returned (`buffer`), because the parsers
mutate their input (`bytes[0] = ':'`) and the caller's array sees it. -/
inductive PRes (α : Type) where
  | ok : α → Nat → GoStr → PRes α
  | panicked : GoPanic → GoStr → PRes α
deriving DecidableEq, Repr

/-- True on a non-panicking parse. -/
def PRes.isOk {α : Type} : PRes α → Bool
  | .ok .. => true
  | .panicked .. => false

/-- The final buffer contents, in both outcomes. -/
def PRes.buffer {α : Type} : PRes α → GoStr
  | .ok _ _ b => b
  | .panicked _ b => b

/-- The panic of `assertNonEmptyStream`. -/
def emptyStreamPanic : GoPanic :=
  .redisError (NewRedisError InvalidByteSeq (gostr "Cannot parse empty byte stream"))

/-- The panic of `assertStartSymbol` (`%v` renders a byte as its decimal). -/
def startSymbolPanic (symbol startByte : Nat) : GoPanic :=
  .redisError (NewRedisError InvalidByteSeq
    (gostr "Expected start byte to be " ++ natToDecimal symbol
      ++ gostr ", instead got " ++ natToDecimal startByte))

/-! ## The parsers (resp, parser half of src/commands/strings.go) -/

/-- The scanning loop of `readUntilCRLF` starting at the current index:
stop (consuming it) at the first `\n`, count but do not keep `\r` bytes,
append `string(c)` (the UTF-8 encoding of the byte) for everything else.
The count is of source bytes consumed; the string may be longer. -/
def readLoop : GoStr → GoStr × Nat
  | [] => ([], 0)
  | c :: rest =>
    if c = nlByte then ([], 1)
    else if c = crByte then ((readLoop rest).1, (readLoop rest).2 + 1)
    else (goRuneToString c ++ (readLoop rest).1, (readLoop rest).2 + 1)

/-- `readUntilCRLF`: reads until the first `\n` (tolerating a missing `\r`),
optionally skipping (but counting) the first byte. -/
def readUntilCRLF (bytes : GoStr) (excludeFirstByte : Bool) : GoStr × Nat :=
  if excludeFirstByte = true ∧ bytes ≠ [] then
    ((readLoop bytes.tail).1, (readLoop bytes.tail).2 + 1)
  else readLoop bytes

/-- `parseSimpleString`: a `+`-tagged line.  Does not mutate the buffer. -/
def parseSimpleString (bytes : GoStr) : PRes GoStr :=
  match bytes with
  | [] => .panicked emptyStreamPanic []
  | b :: rest =>
    if b ≠ stringStartByte then .panicked (startSymbolPanic stringStartByte b) (b :: rest)
    else
      .ok (readUntilCRLF (b :: rest) true).1 (readUntilCRLF (b :: rest) true).2 (b :: rest)

/-- The scanning loop of `parseErrorMessage` from index 1 on: the first
whitespace while the code is still empty promotes the accumulated bytes to
the code; `\n` terminates, assigning the accumulator to the code or the
message; `\r` bytes are dropped.  Returns (code, message, n) where `read`
is `n + 1` both when `\n` was found and when the input ran out (the Go
function returns `i + 1` in both cases). -/
def parseErrLoop : GoStr → GoStr → GoStr → GoStr × GoStr × Nat
  | [], ecode, _ => (ecode, [], 1)
  | c :: rest, ecode, str =>
    if c = whitespaceByte ∧ ecode = [] then
      let p := parseErrLoop rest str []
      (p.1, p.2.1, p.2.2 + 1)
    else if c = nlByte then
      if ecode = [] then (str, [], 1) else (ecode, str, 1)
    else if c = crByte then
      let p := parseErrLoop rest ecode str
      (p.1, p.2.1, p.2.2 + 1)
    else
      let p := parseErrLoop rest ecode (str ++ goRuneToString c)
      (p.1, p.2.1, p.2.2 + 1)

/-- `parseErrorMessage`: a `-`-tagged line split into code and message at the
first whitespace.  Does not mutate the buffer.  NOTE: on input without a
`\n` the reported bytes-read count exceeds the slice length by one, which
makes the array-parsing loop fault when it advances past it. -/
def parseErrorMessage (bytes : GoStr) : PRes RedisError :=
  match bytes with
  | [] => .panicked emptyStreamPanic []
  | b :: rest =>
    if b ≠ errorStartByte then .panicked (startSymbolPanic errorStartByte b) (b :: rest)
    else
      .ok (NewRedisError (parseErrLoop rest [] []).1 (parseErrLoop rest [] []).2.1)
        ((parseErrLoop rest [] []).2.2 + 1) (b :: rest)

/-- `parseIntegers`: a `:`-tagged decimal line; an unparsable literal panics
with a plain string.  Does not mutate the buffer. -/
def parseIntegers (bytes : GoStr) : PRes Int :=
  match bytes with
  | [] => .panicked emptyStreamPanic []
  | b :: rest =>
    if b ≠ integerStartByte then .panicked (startSymbolPanic integerStartByte b) (b :: rest)
    else
      match goAtoi (readUntilCRLF (b :: rest) true).1 with
      | none =>
        .panicked (.strPanic (gostr "Invalid integer sequence supplied: "
          ++ (readUntilCRLF (b :: rest) true).1)) (b :: rest)
      | some conv => .ok conv (readUntilCRLF (b :: rest) true).2 (b :: rest)

/-- `parseBulkString`: overwrites the `$` tag with `:` (visible to the
caller), parses the length, then checks it against `MaxBulkSizeLength` and
`-1`, and finally reads the payload line, whose CRLF-stripped length must
equal the declared length. -/
def parseBulkString (bytes : GoStr) : PRes BulkString :=
  match bytes with
  | [] => .panicked emptyStreamPanic []
  | b :: rest =>
    if b ≠ bulkStringStartByte then .panicked (startSymbolPanic bulkStringStartByte b) (b :: rest)
    else
      let bytes1 : GoStr := integerStartByte :: rest
      match parseIntegers bytes1 with
      | .panicked p _ => .panicked p bytes1
      | .ok respInt read _ =>
        if (MaxBulkSizeLength : Int) < respInt then
          .panicked (.strPanic
            (gostr "Bulk string length exceeds maximum allowed size of 1MB")) bytes1
        else if respInt < -1 then
          .panicked (.strPanic (gostr "Bulk string length must be greater than -1")) bytes1
        else if respInt = 0 then
          match NewBulkString [] with
          | .error e => .panicked (.errValue e) bytes1
          | .ok bs => .ok bs read bytes1
        else if respInt = -1 then .ok NewNullBulkString read bytes1
        else
          let body := readUntilCRLF (bytes1.drop read) false
          if (body.1.length : Int) ≠ respInt then
            .panicked (.strPanic (gostr "Bulk string length " ++ natToDecimal body.1.length
              ++ gostr " does not match expected length of " ++ intToDecimal respInt)) bytes1
          else
            match NewBulkString body.1 with
            | .error e => .panicked (.errValue e) bytes1
            | .ok bs => .ok bs (read + body.2) bytes1

/-- The panic raised when the element counter reaches the declared capacity
while input remains. -/
def arrayOverflowPanic (counter : Nat) (numberOfItems : Int) : GoPanic :=
  .strPanic (gostr "Invalid command stream. RESP Array index " ++ natToDecimal (counter + 1)
    ++ gostr " exceeds specified capacity of " ++ intToDecimal numberOfItems)

/-- Functorial action on parse results (models the `s, r = parseX(bytes)`
assignments into the `IDataType` interface variable). -/
def PRes.map {α β : Type} (f : α → β) : PRes α → PRes β
  | .ok a r b => .ok (f a) r b
  | .panicked p b => .panicked p b

/-- The element loop of `parseArray`.  `rem` is the not-yet-consumed part of
the array's slice, `processed` the already-consumed part with its mutations
applied.  Each iteration dispatches on the element tag, stores the element
at `counter`, and advances by the number of bytes read.

The recursion advances on the unmutated `rem`: a sub-parser only ever
overwrites index 0 of the slice it is given (`$` tag rewriting), and it
consumes at least one byte on success, so the bytes it hands back beyond the
consumed region coincide with `rem.drop r`.  Advancing past the end of the
slice (`r > len`) is Go's slice-bounds panic.

The loop is given fuel to keep the recursion structural: with fuel at least
`rem.length + 1` the fuel can never run out, because every successful
sub-parse consumes at least one byte (`elementRead_pos`); the fuel-exhausted
branch corresponds to the infinite loop Go would enter if an element parser
consumed nothing.

The switch on the element's leading tag byte is `parseElement` below
(`first` is `bytes[0]`); note that a nested `*` hits its default case. -/
def parseElement (first : Nat) (bytes : GoStr) : PRes IDataType :=
  if first = stringStartByte then (parseSimpleString bytes).map .rstr
  else if first = integerStartByte then (parseIntegers bytes).map .rint
  else if first = bulkStringStartByte then (parseBulkString bytes).map .rbulk
  else if first = errorStartByte then (parseErrorMessage bytes).map .rerr
  else .panicked (.strPanic (gostr "Unknown start byte " ++ goRuneToString first)) bytes

/-- The fuel-structured element loop of `parseArray` (see the comment on
`parseArrayLoop`). -/
def parseArrayLoopF : Nat → GoStr → RArray → Nat → Int → GoStr → Nat → PRes RArray
  | 0, rem, _, _, _, processed, _ =>
    .panicked (.strPanic (gostr "unreachable: element consumed no bytes")) (processed ++ rem)
  | _ + 1, [], arr, _, _, processed, bytesRead => .ok arr bytesRead processed
  | fuel + 1, first :: rest0, arr, counter, numberOfItems, processed, bytesRead =>
    if arr.GetNumberOfItems ≤ counter then
      .panicked (arrayOverflowPanic counter numberOfItems) (processed ++ first :: rest0)
    else
      match parseElement first (first :: rest0) with
      | .panicked p b => .panicked p (processed ++ b)
      | .ok s r b =>
        let arr' := arr.SetItemAtIndex counter s
        if r ≤ (first :: rest0).length then
          parseArrayLoopF fuel ((first :: rest0).drop r) arr' (counter + 1) numberOfItems
            (processed ++ b.take r) (bytesRead + r)
        else .panicked (.sliceOutOfRange r (first :: rest0).length) (processed ++ b)

/-- The element loop of `parseArray` with the fuel instantiated so that it
never runs out (see `parseArrayLoopF`). -/
def parseArrayLoop (rem : GoStr) (arr : RArray) (counter : Nat) (numberOfItems : Int)
    (processed : GoStr) (bytesRead : Nat) : PRes RArray :=
  parseArrayLoopF (rem.length + 1) rem arr counter numberOfItems processed bytesRead

/-- `parseArray`: overwrites the `*` tag with `:` (visible to the caller),
parses the declared length, allocates the item slots and runs the element
loop over the rest of the slice. -/
def parseArray (bytes : GoStr) : PRes RArray :=
  match bytes with
  | [] => .panicked emptyStreamPanic []
  | b :: rest =>
    if b ≠ arrayStartByte then .panicked (startSymbolPanic arrayStartByte b) (b :: rest)
    else
      let bytes1 : GoStr := integerStartByte :: rest
      match parseIntegers bytes1 with
      | .panicked p _ => .panicked p bytes1
      | .ok numberOfItems n _ =>
        match NewArray numberOfItems with
        | .error e => .panicked (.errValue e) bytes1
        | .ok arr =>
          parseArrayLoop (bytes1.drop n) arr 0 numberOfItems (bytes1.take n) n

/-- `getNextArrayStartByteIndex`, the scan from index 1 for the next `*`:
`1 + findStar tail`, where a missing `*` contributes the tail's length. -/
def findStar : GoStr → Nat
  | [] => 0
  | c :: rest => if c = arrayStartByte then 0 else 1 + findStar rest

/-- Index of the next `*` from position 1 on, or the length when absent. -/
def getNextArrayStartByteIndex (bytes : GoStr) : Nat :=
  match bytes with
  | [] => 0
  | _ :: rest => 1 + findStar rest

/-- Result of `ParseRedisClientRequest`.  `finalBuffer` models the contents
of the caller's byte slice after the call (the parsers mutate it). -/
structure RCRResult where
  commands : List RArray
  totalBytesRead : Nat
  finalErr : RedisError
  finalBuffer : GoStr
deriving DecidableEq, Repr

/-- The pipelining loop of `ParseRedisClientRequest` together with its
`recover` block: each iteration bounds the current parse to the slice ending
at the next `*`, appends the decoded array, and advances.  A panic from
`parseArray` is converted by `panicToRedisError`, keeping the arrays
accumulated so far (`commands` is a named return value the loop
assigns).  The byte count behaves differently: the loop accumulates into
the LOCAL `totalBytesRead`, and the named return `totalBytes` is assigned
only by the final `return` statement, which a panic never reaches — so on
every fault path the function returns a byte count of 0.

As with the array loop, fuel keeps the recursion structural; with fuel at
least `bytes.length + 1` it cannot run out, because the loop only continues
when `read > 0` (the Go loop has the same guard and `break`s otherwise). -/
def parseRCRLoopF : Nat → GoStr → List RArray → Nat → GoStr → RCRResult
  | 0, bytes, commands, total, acc => ⟨commands, total, EmptyRedisError, acc ++ bytes⟩
  | _ + 1, [], commands, total, acc => ⟨commands, total, EmptyRedisError, acc⟩
  | fuel + 1, b0 :: rest0, commands, total, acc =>
    let asbIndex := getNextArrayStartByteIndex (b0 :: rest0)
    match parseArray ((b0 :: rest0).take asbIndex) with
    | .panicked p buf =>
      ⟨commands, 0, panicToRedisError p, acc ++ buf ++ (b0 :: rest0).drop asbIndex⟩
    | .ok command read buf =>
      if 0 < read then
        parseRCRLoopF fuel ((b0 :: rest0).drop read) (commands ++ [command]) (total + read)
          (acc ++ buf.take read)
      else ⟨commands, total, EmptyRedisError, acc ++ buf ++ (b0 :: rest0).drop asbIndex⟩

/-- The pipelining loop with the fuel instantiated so that it never runs
out (see `parseRCRLoopF`). -/
def parseRCRLoop (bytes : GoStr) (commands : List RArray) (total : Nat) (acc : GoStr) :
    RCRResult :=
  parseRCRLoopF (bytes.length + 1) bytes commands total acc

/-- `ParseRedisClientRequest`: decode a pipelined request into arrays,
catching every internal panic. -/
def ParseRedisClientRequest (bytes : GoStr) : RCRResult :=
  parseRCRLoop bytes [] 0 []

example : readUntilCRLF [36] true = ([], 1) := by decide
example : readUntilCRLF (gostr "$ab\r\ncd") true = (gostr "ab", 5) := by decide
example : parseSimpleString (gostr "+ab\r\n-ER\r\n")
    = .ok (gostr "ab") 5 (gostr "+ab\r\n-ER\r\n") := by decide
example : parseErrorMessage (gostr "-WRONGTYPE foobar\r\n")
    = .ok (NewRedisError (gostr "WRONGTYPE") (gostr "foobar")) 19
        (gostr "-WRONGTYPE foobar\r\n") := by decide
example : parseErrorMessage (gostr "-ERR\r\n")
    = .ok (NewRedisError (gostr "ERR") []) 6 (gostr "-ERR\r\n") := by decide
example : parseIntegers (gostr ":42") = .ok 42 3 (gostr ":42") := by decide
example : parseIntegers (gostr ":-42\r\n") = .ok (-42) 6 (gostr ":-42\r\n") := by decide
example : parseBulkString (gostr "$2\r\nab\r\n")
    = .ok ⟨false, gostr "ab"⟩ 8 (gostr ":2\r\nab\r\n") := by decide
example : parseBulkString (gostr "$-1\r\n") = .ok ⟨true, []⟩ 5 (gostr ":-1\r\n") := by decide
example : parseBulkString (gostr "$0\r\n") = .ok ⟨false, []⟩ 4 (gostr ":0\r\n") := by decide
example : (parseBulkString (gostr "$2\r\na\r\n")).isOk = false := by decide
example : (parseBulkString (gostr "$-4\r\n")).isOk = false := by decide
example : (parseArray (gostr "*-1\r\n")).isOk = false := by decide
example : parseArray (gostr "*0\r\n") = .ok ⟨[]⟩ 4 (gostr ":0\r\n") := by decide
example : parseArray (gostr "*2\r\n:42\r\n+ab\r\n")
    = .ok ⟨[some (.rint 42), some (.rstr (gostr "ab"))]⟩ 14
        (gostr ":2\r\n:42\r\n+ab\r\n") := by decide
example : (parseArray (gostr "*2\r\n:ii\r\n+ab\r\n")).isOk = false := by decide
example :
    (ParseRedisClientRequest (gostr "*3\r\n+SET\r\n+foo\r\n+bar\r\n")).commands
      = [⟨[some (.rstr (gostr "SET")), some (.rstr (gostr "foo")),
           some (.rstr (gostr "bar"))]⟩] := by decide
example :
    (ParseRedisClientRequest (gostr "*1\r\n:5\r\n*1\r\n:x\r\n")).commands
      = [⟨[some (.rint 5)]⟩]
    ∧ (ParseRedisClientRequest (gostr "*1\r\n:5\r\n*1\r\n:x\r\n")).totalBytesRead = 0 := by
  decide

/-! ## Storage (storage/generic_map.go) -/

/-- `storage.IntegerOrString`: the two value wrappers the generic map holds
(`GCMStringType`, `GCMIntegerType`). -/
inductive IntegerOrString where
  | GCMStringType : GoStr → IntegerOrString
  | GCMIntegerType : Int → IntegerOrString
deriving DecidableEq, Repr

/-- `storage.GenericConcurrentMap`, modelled as an association list with
unique keys (`Store` replaces in place). The mutex-protected operations are
atomic, so the sequential model is exact for a single client. -/
abbrev GenericConcurrentMap := List (GoStr × IntegerOrString)

/-- `GenericConcurrentMap.Load`: the value at a key, if present. -/
def GenericConcurrentMap.Load : GenericConcurrentMap → GoStr → Option IntegerOrString
  | [], _ => none
  | (k, v) :: rest, key =>
    if k = key then some v else GenericConcurrentMap.Load rest key

/-- `GenericConcurrentMap.Store`: unconditional insert / overwrite. -/
def GenericConcurrentMap.Store :
    GenericConcurrentMap → GoStr → IntegerOrString → GenericConcurrentMap
  | [], key, value => [(key, value)]
  | (k, v) :: rest, key, value =>
    if k = key then (k, value) :: rest
    else (k, v) :: GenericConcurrentMap.Store rest key value

/-- `GenericConcurrentMap.Delete`: remove the key, reporting whether it was
present. -/
def GenericConcurrentMap.Delete : GenericConcurrentMap → GoStr → GenericConcurrentMap × Bool
  | [], _ => ([], false)
  | (k, v) :: rest, key =>
    if k = key then (rest, true)
    else
      let (m, ok) := GenericConcurrentMap.Delete rest key
      ((k, v) :: m, ok)

/-! ## The command dispatcher (command half of src/unnamed/part_002) -/

deriving instance DecidableEq for Except

/-- `Array.GetItemAtIndex` as used by the dispatcher: direct slice indexing,
so an out-of-bounds index is a Go runtime panic.  The slot may hold a nil
interface value (`none`). -/
def RArray.GetItemAtIndex (ra : RArray) (index : Nat) : Except GoPanic (Option IDataType) :=
  match ra.items.get? index with
  | some v => .ok v
  | none => .error .indexOutOfRange

/-- The `getCommand` constant. -/
def getCommand : GoStr := gostr "GET"
/-- The `setCommand` constant. -/
def setCommand : GoStr := gostr "SET"
/-- The `getSetCommand` constant. -/
def getSetCommand : GoStr := gostr "GETSET"
/-- The `deleteCommand` constant. -/
def deleteCommand : GoStr := gostr "DEL"

/-- `redisOk = resp.NewString("OK")`. -/
def redisOk : IDataType := .rstr (gostr "OK")

/-- `executeGetCommand`: arity check, then a type switch on the key.  The
`case resp.String:` arm of the Go type switch has an empty body and Go type
switches do not fall through, so a `String` key leaves the switch and
reaches the trailing `return nil, resp.EmptyRedisError`.  The over-arity
warning (items > 2) is a log print with no semantic effect and is not
modelled. -/
def executeGetCommand (gm : GenericConcurrentMap) (ra : RArray) :
    Except GoPanic (Option IDataType × RedisError) :=
  let numberOfItems := ra.GetNumberOfItems
  if numberOfItems = 1 then
    .ok (none, NewDefaultRedisError (gostr "wrong number of arguments for (get) command"))
  else
    match ra.GetItemAtIndex 1 with
    | .error p => .error p
    | .ok key =>
      match key with
      | some (.rstr _) => .ok (none, EmptyRedisError)
      | some (.rbulk kb) =>
        match gm.Load (IDataType.ToString (.rbulk kb)) with
        | none => .ok (some (.rbulk NewNullBulkString), EmptyRedisError)
        | some (.GCMStringType v) =>
          match NewBulkString v with
          | .error e => .ok (none, NewDefaultRedisError e)
          | .ok bs => .ok (some (.rbulk bs), EmptyRedisError)
        | some (.GCMIntegerType v) => .ok (some (.rint v), EmptyRedisError)
      | _ =>
        .ok (none, NewDefaultRedisError (getCommand ++ gostr " expects a string key value"))

/-- `getStoreCommandReply`: despite the "Fetch previous key value" comment in
the source, `v` here is the value the command just stored, so with
`returnPreviousKey` the reply is a `BulkString` of the NEW value. -/
def getStoreCommandReply (v : IDataType) (returnPreviousKey : Bool) :
    Option IDataType × RedisError :=
  if returnPreviousKey = true then
    match NewBulkString v.ToString with
    | .error e => (some (.rbulk NewNullBulkString), NewDefaultRedisError e)
    | .ok bs => (some (.rbulk bs), EmptyRedisError)
  else (some redisOk, EmptyRedisError)

/-- The `isKeyStringType` branch of `executeSetCommand`: a type switch on
the value, storing a `GCMStringType` of the value's rendering (or a
`GCMIntegerType`) and building the reply via `getStoreCommandReply`. -/
def setWithStringKey (gm : GenericConcurrentMap) (keyV : IDataType)
    (value : Option IDataType) (returnPreviousKey : Bool) :
    GenericConcurrentMap × Option IDataType × RedisError :=
  match value with
  | some (.rstr s) =>
    let gm' := gm.Store keyV.ToString (.GCMStringType (IDataType.ToString (.rstr s)))
    let (reply, e) := getStoreCommandReply (.rstr s) returnPreviousKey
    (gm', reply, e)
  | some (.rbulk b) =>
    let gm' := gm.Store keyV.ToString (.GCMStringType (IDataType.ToString (.rbulk b)))
    let (reply, e) := getStoreCommandReply (.rbulk b) returnPreviousKey
    (gm', reply, e)
  | some (.rint i) =>
    let gm' := gm.Store keyV.ToString (.GCMIntegerType i)
    let (reply, e) := getStoreCommandReply (.rint i) returnPreviousKey
    (gm', reply, e)
  | _ =>
    (gm, some (.rbulk NewNullBulkString),
      NewDefaultRedisError (gostr "Value must be string or integer"))

/-- `executeSetCommand` (used by both SET and GETSET): the arity error fires
only at exactly 2 items; both item fetches happen before any type check, so
a 1-item array faults on `GetItemAtIndex(1)`.  The non-string-key error
message interpolates `getCommand` (a quirk of the source), and the
over-arity warning (items > 3) is a log print with no semantic effect and
is not modelled. -/
def executeSetCommand (gm : GenericConcurrentMap) (ra : RArray) (returnPreviousKey : Bool) :
    Except GoPanic (GenericConcurrentMap × Option IDataType × RedisError) :=
  let numberOfItems := ra.GetNumberOfItems
  if numberOfItems = 2 then
    .ok (gm, some (.rbulk NewNullBulkString),
      NewDefaultRedisError (gostr "wrong number of arguments for (set) command"))
  else
    match ra.GetItemAtIndex 1 with
    | .error p => .error p
    | .ok key =>
      match ra.GetItemAtIndex 2 with
      | .error p => .error p
      | .ok value =>
        match key with
        | some (.rstr ks) => .ok (setWithStringKey gm (.rstr ks) value returnPreviousKey)
        | some (.rbulk kb) => .ok (setWithStringKey gm (.rbulk kb) value returnPreviousKey)
        | _ =>
          .ok (gm, some (.rbulk NewNullBulkString),
            NewDefaultRedisError (getCommand ++ gostr " expects a string key value"))

/-- The loop of `executeDeleteCommand`, one fuel unit per iteration
(`k = 1 .. numberOfItems-1`).  The body fetches `GetItemAtIndex(1)` on every
iteration — the loop variable `k` is never used — so only the first key
argument is ever deleted. -/
def delLoopF : Nat → GenericConcurrentMap → RArray → Nat →
    Except GoPanic (GenericConcurrentMap × Option IDataType × RedisError)
  | 0, gm, _, numberOfKeysDeleted =>
    .ok (gm, some (.rint numberOfKeysDeleted), EmptyRedisError)
  | fuel + 1, gm, ra, numberOfKeysDeleted =>
    match ra.GetItemAtIndex 1 with
    | .error p => .error p
    | .ok key =>
      match key with
      | some (.rstr ks) =>
        let (gm', ok) := gm.Delete (IDataType.ToString (.rstr ks))
        delLoopF fuel gm' ra (if ok then numberOfKeysDeleted + 1 else numberOfKeysDeleted)
      | some (.rbulk kb) =>
        let (gm', ok) := gm.Delete (IDataType.ToString (.rbulk kb))
        delLoopF fuel gm' ra (if ok then numberOfKeysDeleted + 1 else numberOfKeysDeleted)
      | _ =>
        .ok (gm, some (.rint 0),
          NewDefaultRedisError (getCommand ++ gostr " expects a string key value"))

/-- `executeDeleteCommand`: arity check, then the deletion loop; replies
`Integer(numberOfKeysDeleted)` (`resp.EmptyInteger` has value 0). -/
def executeDeleteCommand (gm : GenericConcurrentMap) (ra : RArray) :
    Except GoPanic (GenericConcurrentMap × Option IDataType × RedisError) :=
  let numberOfItems := ra.GetNumberOfItems
  if numberOfItems = 1 then
    .ok (gm, some (.rint 0),
      NewDefaultRedisError (gostr "wrong number of arguments for (del) command"))
  else delLoopF (numberOfItems - 1) gm ra 0

/-- `ExecuteStringCommand`: dispatch on the rendering of item 0.  Calling
`ToString` on a nil interface slot is a Go runtime panic.  The store `gm`
is a package-level global in the source; here it is threaded explicitly as
an argument and through the result. -/
def ExecuteStringCommand (gm : GenericConcurrentMap) (ra : RArray) :
    Except GoPanic (GenericConcurrentMap × Option IDataType × RedisError) :=
  if 0 < ra.GetNumberOfItems then
    match ra.GetItemAtIndex 0 with
    | .error p => .error p
    | .ok none => .error .nilDereference
    | .ok (some first) =>
      if first.ToString = getCommand then
        match executeGetCommand gm ra with
        | .error p => .error p
        | .ok (reply, e) => .ok (gm, reply, e)
      else if first.ToString = setCommand then executeSetCommand gm ra false
      else if first.ToString = getSetCommand then executeSetCommand gm ra true
      else if first.ToString = deleteCommand then executeDeleteCommand gm ra
      else .ok (gm, none, NewDefaultRedisError (gostr "Cannot handle command"))
  else .ok (gm, none, NewDefaultRedisError (gostr "Cannot handle command"))

example :
    ExecuteStringCommand []
      ⟨[some (.rbulk ⟨false, gostr "SET"⟩), some (.rbulk ⟨false, gostr "k"⟩),
        some (.rbulk ⟨false, gostr "2"⟩)]⟩
    = .ok ([(gostr "k", .GCMStringType (gostr "2"))], some redisOk, EmptyRedisError) := by
  decide

example :
    ExecuteStringCommand [(gostr "k", .GCMStringType (gostr "2"))]
      ⟨[some (.rbulk ⟨false, gostr "GET"⟩), some (.rbulk ⟨false, gostr "k"⟩)]⟩
    = .ok ([(gostr "k", .GCMStringType (gostr "2"))],
        some (.rbulk ⟨false, gostr "2"⟩), EmptyRedisError) := by decide

example :
    ExecuteStringCommand []
      ⟨[some (.rbulk ⟨false, gostr "GET"⟩), some (.rbulk ⟨false, gostr "z"⟩)]⟩
    = .ok ([], some (.rbulk NewNullBulkString), EmptyRedisError) := by decide

/-! ## ExpiryQueue (storage/expiry_queue.go) -/

/-- The mutex-protected state of `storage.ExpiryQueue`: the TTL map and the
key sequence kept sorted ascending by expiry.  The outbound channel is
modelled by returning the list of emitted keys. -/
structure ExpiryQueueState where
  ttlMap : List (GoStr × Int)
  sortedKeys : List GoStr
deriving DecidableEq, Repr

/-- Go map read `ttlMap[k]`: the zero value 0 when the key is absent. -/
def ttlLookup : List (GoStr × Int) → GoStr → Int
  | [], _ => 0
  | (k, t) :: rest, key => if k = key then t else ttlLookup rest key

/-- Go map write `ttlMap[k] = ttl`. -/
def ttlSet : List (GoStr × Int) → GoStr → Int → List (GoStr × Int)
  | [], key, ttl => [(key, ttl)]
  | (k, t) :: rest, key, ttl =>
    if k = key then (k, ttl) :: rest else (k, t) :: ttlSet rest key ttl

/-- Go map delete `delete(ttlMap, k)`. -/
def ttlDelete : List (GoStr × Int) → GoStr → List (GoStr × Int)
  | [], _ => []
  | (k, t) :: rest, key => if k = key then rest else (k, t) :: ttlDelete rest key

/-- `sort.Search`: binary search for the smallest index in `[i, j)` at which
`f` holds (assuming `f` monotone), exactly as Go implements it. -/
def sortSearchAux (f : Nat → Bool) (i j : Nat) : Nat :=
  if h : i < j then
    let m := (i + j) / 2
    if f m then sortSearchAux f i m else sortSearchAux f (m + 1) j
  else i
termination_by j - i
decreasing_by all_goals omega

/-- `ExpiryQueue.insertKey`: set `ttlMap[x] = ttl`, then insert `x` into
`sortedKeys` before the first key whose (updated) expiry is `≥ ttl`. -/
def insertKey (eq : ExpiryQueueState) (x : GoStr) (ttl : Int) : ExpiryQueueState :=
  let ttlMap' := ttlSet eq.ttlMap x ttl
  let data := eq.sortedKeys
  let i := sortSearchAux (fun i => decide (ttl ≤ ttlLookup ttlMap' (data.getD i []))) 0
    data.length
  ⟨ttlMap', data.take i ++ x :: data.drop i⟩

/-- The inner loop of one `expireKeys` sweep, assuming a live consumer (every
non-blocking channel send succeeds, so the `default:`/`exitFlag` path is not
taken): emit and map-delete each key while its expiry is `≤ currSec`; on the
first future key record `till = i` and stop.  Returns the updated map, the
emitted keys in order, and `some till` if the loop broke early (`none` when
it ran off the end of the keys, in which case `till` keeps its initial
value 1). -/
def sweepGo : List (GoStr × Int) → List GoStr → Nat → Int →
    List (GoStr × Int) × List GoStr × Option Nat
  | ttlMap, [], _, _ => (ttlMap, [], none)
  | ttlMap, k :: rest, i, currSec =>
    if ttlLookup ttlMap k ≤ currSec then
      let ttlMap' := ttlDelete ttlMap k
      let (m, em, t) := sweepGo ttlMap' rest (i + 1) currSec
      (m, k :: em, t)
    else (ttlMap, [], some i)

/-- One iteration of the `expireKeys` sweep body (the part under the mutex),
with a live consumer: if the first sorted key is due, run the inner loop and
drop the first `till` keys from `sortedKeys` — `till` starts at 1, so when
every key is due only one entry is removed from `sortedKeys`. -/
def expireKeysIteration (eq : ExpiryQueueState) (currSec : Int) :
    ExpiryQueueState × List GoStr :=
  match eq.sortedKeys with
  | [] => (eq, [])
  | first :: _ =>
    if ttlLookup eq.ttlMap first ≤ currSec then
      let (m, em, t) := sweepGo eq.ttlMap eq.sortedKeys 0 currSec
      let till := t.getD 1
      (⟨m, eq.sortedKeys.drop till⟩, em)
    else (eq, [])

/-! ## SETNX (not present under src/) -/

/-- Modelled from the spec: the SETNX implementation is absent from the
sources under src/ — the repository README lists SETNX among the supported
commands, but the `commands` package present here dispatches only GET, SET,
GETSET and DEL.  Spec §4.6: "SETNX k v — If k exists → reply `Integer(0)`
and do not mutate.  Else → store and reply `Integer(1)`." -/
def executeSetNxCommand (gm : GenericConcurrentMap) (k v : GoStr) :
    GenericConcurrentMap × IDataType :=
  match gm.Load k with
  | some _ => (gm, .rint 0)
  | none => (gm.Store k (.GCMStringType v), .rint 1)

example :
    expireKeysIteration ⟨[(gostr "a", 5), (gostr "b", 20)], [gostr "a", gostr "b"]⟩ 10
      = (⟨[(gostr "b", 20)], [gostr "b"]⟩, [gostr "a"]) := by decide

/-! ## Reference functions for the decode-progress and array-fill claims -/

/-- Reference recursion for the pipelining loop, following the spec wording:
the arrays decoded by the successful iterations before the first fault, the
bytes they consumed, and the first fault if there was one.  Unlike
`parseRCRLoopF` it carries no accumulators and no buffer. -/
def decodeProgressF : Nat → GoStr → List RArray × Nat × Option GoPanic
  | 0, _ => ([], 0, none)
  | _ + 1, [] => ([], 0, none)
  | fuel + 1, b0 :: rest0 =>
    let asbIndex := getNextArrayStartByteIndex (b0 :: rest0)
    match parseArray ((b0 :: rest0).take asbIndex) with
    | .panicked p _ => ([], 0, some p)
    | .ok command read _ =>
      if 0 < read then
        let rest := decodeProgressF fuel ((b0 :: rest0).drop read)
        (command :: rest.1, read + rest.2.1, rest.2.2)
      else ([], 0, none)

/-- Arrays decoded before the first fault, bytes consumed, and the fault. -/
def decodeProgress (bytes : GoStr) : List RArray × Nat × Option GoPanic :=
  decodeProgressF (bytes.length + 1) bytes

/-- The decoded item slots form a filled prefix: every slot after the first
nil slot is also nil. -/
def frontFilled : List (Option IDataType) → Bool
  | [] => true
  | some _ :: rest => frontFilled rest
  | none :: rest => rest.all (fun o => o.isNone)

/-! ## Claim theorems -/

/-- C1: evaluation of the code at the failing input.  With the store holding
`k ↦ "2"`, the pipelined `GETSET k 9` does store `"9"`, but the reply is a
`BulkString` of the newly supplied value `"9"`, not of the prior value `"2"`
(`getStoreCommandReply` builds the reply from the value it just stored,
contradicting its own "Fetch previous key value" comment). -/
theorem getset_replies_newly_supplied_value :
    ExecuteStringCommand [(gostr "k", .GCMStringType (gostr "2"))]
      ⟨[some (.rbulk ⟨false, gostr "GETSET"⟩), some (.rbulk ⟨false, gostr "k"⟩),
        some (.rbulk ⟨false, gostr "9"⟩)]⟩
    = .ok ([(gostr "k", .GCMStringType (gostr "9"))],
        some (.rbulk ⟨false, gostr "9"⟩), EmptyRedisError) := by decide

/-- C2: evaluation of the code at the failing input.  With the store holding
`a ↦ "1"` and `b ↦ "2"`, `DEL a b` deletes only `a` (the loop body reads
`GetItemAtIndex(1)` on every iteration, never using the loop variable) and
replies `Integer(1)`; `b` is still present afterwards, where the claim
requires both keys removed and `Integer(2)`. -/
theorem del_two_keys_removes_only_first :
    ExecuteStringCommand
      [(gostr "a", .GCMStringType (gostr "1")), (gostr "b", .GCMStringType (gostr "2"))]
      ⟨[some (.rbulk ⟨false, gostr "DEL"⟩), some (.rbulk ⟨false, gostr "a"⟩),
        some (.rbulk ⟨false, gostr "b"⟩)]⟩
    = .ok ([(gostr "b", .GCMStringType (gostr "2"))], some (.rint 1), EmptyRedisError) := by
  decide

/-- C7: evaluation of the code at the failing input.  With the store holding
`k ↦ "2"`, a `GET` whose key argument is the SimpleString `k` replies a nil
interface value with `EmptyRedisError` (the server renders this `(nil)`),
because the `case resp.String:` arm of the key type switch is empty and Go
type switches do not fall through — not the `BulkString "2"` the claim
requires. -/
theorem get_simplestring_key_returns_nil :
    ExecuteStringCommand [(gostr "k", .GCMStringType (gostr "2"))]
      ⟨[some (.rstr (gostr "GET")), some (.rstr (gostr "k"))]⟩
    = .ok ([(gostr "k", .GCMStringType (gostr "2"))], none, EmptyRedisError) := by decide

/-- C9: evaluation of the code at the failing state.  With
`ttlMap = [a ↦ 5, b ↦ 6]`, `sortedKeys = [a, b]` and `currSec = 10` (every
key expired), one sweep iteration emits `a` and `b` and deletes both from
`ttlMap`, but `till` keeps its initial value 1, so `sortedKeys` becomes
`[b]`: the emitted key `b` is NOT removed from `sortedKeys`, where the claim
requires every emitted key dropped from both structures. -/
theorem sweep_all_expired_keeps_tail_in_sorted_keys :
    expireKeysIteration ⟨[(gostr "a", 5), (gostr "b", 6)], [gostr "a", gostr "b"]⟩ 10
      = (⟨[], [gostr "b"]⟩, [gostr "a", gostr "b"]) := by decide

/-- C6 counterexample: a `SET` request array with exactly 1 item does not
produce the arity error reply — evaluation reaches `GetItemAtIndex(1)` on a
1-element array and faults with Go's index-out-of-range panic. -/
theorem set_one_item_faults :
    ExecuteStringCommand [] ⟨[some (.rbulk ⟨false, gostr "SET"⟩)]⟩
      = .error .indexOutOfRange := by decide

/-- C5 counterexample: the input `*2\r\n:1\r\n` declares 2 items but supplies
only one element; decoding completes without a decode error, yet the second
slot is still uninitialised (`none`), so the decoded Array does not contain
exactly N decoded values. -/
theorem array_undersupplied_has_nil_slot :
    parseArray (gostr "*2\r\n:1\r\n")
      = .ok ⟨[some (.rint 1), none]⟩ 8 (gostr ":2\r\n:1\r\n") := by decide

/-- C4 counterexample: two binary payloads satisfying `1 ≤ len(p) ≤
MAX_BULK` whose frame `$1\r\n` ++ p ++ `\r\n` is a decode error rather than
a `BulkString` holding `p`.  For `p = [10]` (a single LF), `readUntilCRLF`
stops at the first LF so the body reads back empty; for `p = [200]` (a
non-ASCII byte), `str += string(c)` UTF-8-encodes it as the two bytes
`[195, 136]` so the body length reads back as 2.  Either way the length
check fails, refuting binary safety. -/
theorem bulk_unsafe_payload_decode_fails :
    (parseBulkString [36, 49, 13, 10, 10, 13, 10]).isOk = false
    ∧ (parseBulkString [36, 49, 13, 10, 200, 13, 10]).isOk = false := by decide

/-- C6 (amended): a SET request array with exactly 2 items gets the reply
`ERR wrong number of arguments for (set) command` without faulting; a SET
request array with exactly 1 item does NOT get an error reply — the
dispatcher performs an out-of-bounds index access (`GetItemAtIndex(1)`)
and faults. -/
theorem set_arity_two_errors_one_faults :
    (∀ (gm : GenericConcurrentMap) (first : IDataType) (x : Option IDataType),
      first.ToString = setCommand →
      ExecuteStringCommand gm ⟨[some first, x]⟩
        = .ok (gm, some (.rbulk NewNullBulkString),
            NewDefaultRedisError (gostr "wrong number of arguments for (set) command")))
    ∧ (∀ (gm : GenericConcurrentMap) (first : IDataType),
      first.ToString = setCommand →
      ExecuteStringCommand gm ⟨[some first]⟩ = .error .indexOutOfRange) := by
  constructor
  · intro gm first x h
    simp +decide [ExecuteStringCommand, RArray.GetNumberOfItems, RArray.GetItemAtIndex,
      executeSetCommand, h]
  · intro gm first h
    simp +decide [ExecuteStringCommand, RArray.GetNumberOfItems, RArray.GetItemAtIndex,
      executeSetCommand, h]

/-- C6 witness: the amended theorem applied at concrete inputs. -/
theorem set_arity_witness :
    ExecuteStringCommand [] ⟨[some (.rbulk ⟨false, gostr "SET"⟩), some (.rint 7)]⟩
      = .ok ([], some (.rbulk NewNullBulkString),
          NewDefaultRedisError (gostr "wrong number of arguments for (set) command"))
    ∧ ExecuteStringCommand [(gostr "q", .GCMStringType (gostr "1"))]
        ⟨[some (.rstr (gostr "SET"))]⟩ = .error .indexOutOfRange :=
  ⟨set_arity_two_errors_one_faults.1 [] (.rbulk ⟨false, gostr "SET"⟩) (some (.rint 7))
      (by decide),
   set_arity_two_errors_one_faults.2 [(gostr "q", .GCMStringType (gostr "1"))]
      (.rstr (gostr "SET")) (by decide)⟩

/-- Storing a value and loading the same key returns exactly that value. -/
theorem Load_Store_self (gm : GenericConcurrentMap) (k : GoStr) (v : IntegerOrString) :
    (gm.Store k v).Load k = some v := by
  induction gm with
  | nil => simp [GenericConcurrentMap.Store, GenericConcurrentMap.Load]
  | cons hd tl ih =>
    obtain ⟨k0, v0⟩ := hd
    by_cases h : k0 = k <;>
      simp [GenericConcurrentMap.Store, GenericConcurrentMap.Load, h, ih]

/-- C8: SETNX with key `k` and value `v` replies `Integer(0)` and leaves the
store untouched when `k` is present, and stores `v` under `k` and replies
`Integer(1)` when `k` is absent (SETNX is settled against the spec-modelled
`executeSetNxCommand`, its implementation being absent from src/). -/
theorem setnx_present_noop_absent_stores (gm : GenericConcurrentMap) (k v : GoStr) :
    (∀ w, gm.Load k = some w → executeSetNxCommand gm k v = (gm, .rint 0))
    ∧ (gm.Load k = none →
        executeSetNxCommand gm k v = (gm.Store k (.GCMStringType v), .rint 1)
        ∧ (executeSetNxCommand gm k v).1.Load k = some (.GCMStringType v)) := by
  constructor
  · intro w h; simp [executeSetNxCommand, h]
  · intro h
    refine ⟨by simp [executeSetNxCommand, h], ?_⟩
    simp [executeSetNxCommand, h, Load_Store_self]

/-- C8 witness: the theorem applied at concrete inputs. -/
theorem setnx_witness :
    executeSetNxCommand [(gostr "k", .GCMStringType (gostr "2"))] (gostr "k") (gostr "9")
      = ([(gostr "k", .GCMStringType (gostr "2"))], .rint 0)
    ∧ executeSetNxCommand [] (gostr "k") (gostr "9")
        = ([(gostr "k", .GCMStringType (gostr "9"))], .rint 1) :=
  ⟨(setnx_present_noop_absent_stores [(gostr "k", .GCMStringType (gostr "2"))]
      (gostr "k") (gostr "9")).1 (.GCMStringType (gostr "2")) (by decide),
   by
     have h := (setnx_present_noop_absent_stores [] (gostr "k") (gostr "9")).2 (by decide)
     rw [h.1]; decide⟩

/-- The catching loop agrees with the reference recursion at every fuel:
the commands are the accumulator followed by the arrays decoded before the
first fault, the final error is the converted first fault (or the empty
sentinel), and the byte count adds the bytes the decoded arrays consumed on
a clean parse but is 0 on every fault path (the named return `totalBytes`
is never assigned before the panic). -/
theorem parseRCRLoopF_decode (fuel : Nat) :
    ∀ (bytes : GoStr) (commands : List RArray) (total : Nat) (acc : GoStr),
    (parseRCRLoopF fuel bytes commands total acc).commands
        = commands ++ (decodeProgressF fuel bytes).1
    ∧ (parseRCRLoopF fuel bytes commands total acc).totalBytesRead
        = Option.elim (decodeProgressF fuel bytes).2.2
            (total + (decodeProgressF fuel bytes).2.1) (fun _ => 0)
    ∧ (parseRCRLoopF fuel bytes commands total acc).finalErr
        = (match (decodeProgressF fuel bytes).2.2 with
           | none => EmptyRedisError
           | some p => panicToRedisError p) := by
  induction fuel with
  | zero => intro bytes commands total acc; simp [parseRCRLoopF, decodeProgressF]
  | succ fuel ih =>
    intro bytes commands total acc
    cases bytes with
    | nil => simp [parseRCRLoopF, decodeProgressF]
    | cons b0 rest0 =>
      simp only [parseRCRLoopF, decodeProgressF]
      cases hpa :
          parseArray ((b0 :: rest0).take (getNextArrayStartByteIndex (b0 :: rest0))) with
      | panicked p buf => simp
      | ok command read buf =>
        by_cases hr : 0 < read
        · obtain ⟨h1, h2, h3⟩ :=
            ih ((b0 :: rest0).drop read) (commands ++ [command]) (total + read)
              (acc ++ buf.take read)
          simp only [if_pos hr]
          refine ⟨?_, ?_, ?_⟩
          · rw [h1]; simp
          · rw [h2]
            cases hf : (decodeProgressF fuel ((b0 :: rest0).drop read)).2.2
            · simp [hf]
              omega
            · simp [hf]
          · rw [h3]
        · simp [if_neg hr]

/-- C3: `ParseRedisClientRequest` never propagates an internal parsing
fault: for every input it returns a triple in which the arrays successfully
decoded before the first sub-parser fault are present in order, and the
fault itself — whatever kind of panic it was — appears only converted
through `panicToRedisError` in the returned error (the empty sentinel when
no fault occurred).  On a clean parse the byte count covers exactly the
decoded arrays; on a fault it is 0, because the named return `totalBytes`
is only assigned by the `return` statement the panic bypasses. -/
theorem parse_request_catches_faults_and_keeps_progress (bytes : GoStr) :
    (ParseRedisClientRequest bytes).commands = (decodeProgress bytes).1
    ∧ (ParseRedisClientRequest bytes).totalBytesRead =
        Option.elim (decodeProgress bytes).2.2 (decodeProgress bytes).2.1 (fun _ => 0)
    ∧ (ParseRedisClientRequest bytes).finalErr =
        (match (decodeProgress bytes).2.2 with
         | none => EmptyRedisError
         | some p => panicToRedisError p) := by
  obtain ⟨h1, h2, h3⟩ := parseRCRLoopF_decode (bytes.length + 1) bytes [] 0 []
  refine ⟨by simpa using h1, ?_, h3⟩
  have h2' : (ParseRedisClientRequest bytes).totalBytesRead
      = Option.elim (decodeProgress bytes).2.2 (0 + (decodeProgress bytes).2.1)
          (fun _ => 0) := h2
  rw [h2']
  cases hf : (decodeProgress bytes).2.2 <;> simp [hf]

/-- C10 counterexample: for the input `$2\r\nab\r\n` — a byte sequence
beginning with a BulkString frame — `ParseRedisClientRequest` leaves the
caller's buffer exactly as received: the top-level parse rejects the `$` tag
in `assertStartSymbol` BEFORE the tag-overwriting assignment, so no byte is
mutated (and the fault is reported in `finalErr`). -/
theorem bulk_leading_input_buffer_unchanged :
    (ParseRedisClientRequest (gostr "$2\r\nab\r\n")).finalBuffer = gostr "$2\r\nab\r\n" := by
  decide

/-- `readUntilCRLF` with the first byte excluded counts at least that byte. -/
theorem readUntilCRLF_excl_pos (b : Nat) (rest : GoStr) :
    1 ≤ (readUntilCRLF (b :: rest) true).2 := by
  simp [readUntilCRLF]

/-- A successful `parseIntegers` consumes at least one byte. -/
theorem parseIntegers_read_pos {bs b : GoStr} {v : Int} {r : Nat}
    (h : parseIntegers bs = .ok v r b) : 1 ≤ r := by
  cases bs with
  | nil => simp [parseIntegers] at h
  | cons c rest =>
    simp only [parseIntegers] at h
    by_cases hc : c = integerStartByte
    · subst hc
      rw [if_neg (by simp)] at h
      cases hg : goAtoi (readUntilCRLF (integerStartByte :: rest) true).1 with
      | none => rw [hg] at h; cases h
      | some conv =>
        rw [hg] at h
        cases h
        exact readUntilCRLF_excl_pos _ _
    · rw [if_pos hc] at h
      cases h

/-- Every buffer produced by the element loop extends `processed`. -/
theorem parseArrayLoopF_buffer_extends (fuel : Nat) :
    ∀ (rem : GoStr) (arr : RArray) (c : Nat) (d : Int) (pr : GoStr) (br : Nat),
      ∃ t, (parseArrayLoopF fuel rem arr c d pr br).buffer = pr ++ t := by
  induction fuel with
  | zero => intro rem arr c d pr br; exact ⟨rem, rfl⟩
  | succ fuel ih =>
    intro rem arr c d pr br
    cases rem with
    | nil => exact ⟨[], by simp [parseArrayLoopF, PRes.buffer]⟩
    | cons first rest0 =>
      simp only [parseArrayLoopF]
      split
      · exact ⟨first :: rest0, rfl⟩
      · split
        · exact ⟨_, rfl⟩
        · split
          · next s r b heq hrl =>
            obtain ⟨t, ht⟩ := ih ((first :: rest0).drop r) (arr.SetItemAtIndex c s) (c + 1) d
              (pr ++ b.take r) (br + r)
            exact ⟨b.take r ++ t, by rw [ht, List.append_assoc]⟩
          · exact ⟨_, rfl⟩

/-- Every final buffer produced by the pipelining loop extends `acc`. -/
theorem parseRCRLoopF_buffer_extends (fuel : Nat) :
    ∀ (bytes : GoStr) (commands : List RArray) (total : Nat) (acc : GoStr),
      ∃ t, (parseRCRLoopF fuel bytes commands total acc).finalBuffer = acc ++ t := by
  induction fuel with
  | zero => intro bytes commands total acc; exact ⟨bytes, rfl⟩
  | succ fuel ih =>
    intro bytes commands total acc
    cases bytes with
    | nil => exact ⟨[], by simp [parseRCRLoopF]⟩
    | cons b0 rest0 =>
      simp only [parseRCRLoopF]
      split
      · exact ⟨_, by rw [List.append_assoc]⟩
      · split
        · next command read buf heq hr =>
          obtain ⟨t, ht⟩ :=
            ih ((b0 :: rest0).drop read) (commands ++ [command]) (total + read)
              (acc ++ buf.take read)
          exact ⟨buf.take read ++ t, by rw [ht, List.append_assoc]⟩
        · exact ⟨_, by rw [List.append_assoc]⟩

/-- `parseArray` on a `*`-tagged slice always hands back a buffer whose
first byte has been overwritten with `:`, whether it succeeds or panics:
the overwrite happens immediately after the start-symbol assertion. -/
theorem parseArray_star_buffer_shape (t : GoStr) :
    ∃ u, (parseArray (arrayStartByte :: t)).buffer = integerStartByte :: u := by
  simp only [parseArray]
  rw [if_neg (by simp)]
  split
  · exact ⟨t, rfl⟩
  · next n nr b hpi =>
    split
    · exact ⟨t, rfl⟩
    · next arr hna =>
      have hnr := parseIntegers_read_pos hpi
      obtain ⟨m, hm⟩ : ∃ m, nr = m + 1 := ⟨nr - 1, by omega⟩
      simp only [parseArrayLoop]
      obtain ⟨u, hu⟩ := parseArrayLoopF_buffer_extends
        (((integerStartByte :: t).drop nr).length + 1)
        ((integerStartByte :: t).drop nr) arr 0 n ((integerStartByte :: t).take nr) nr
      rw [hu, hm]
      exact ⟨t.take m ++ u, by simp⟩

/-- `(b :: rest).take` of the next-array-start index keeps the head and
takes `findStar rest` bytes of the tail. -/
theorem take_getNext_cons (b : Nat) (rest : GoStr) :
    (b :: rest).take (getNextArrayStartByteIndex (b :: rest))
      = b :: rest.take (findStar rest) := by
  show (b :: rest).take (1 + findStar rest) = _
  rw [Nat.add_comm]
  rfl

/-- For input beginning with `*`, the caller's buffer after
`ParseRedisClientRequest` starts with `:` — the tag byte was overwritten. -/
theorem rcr_star_final_buffer_shape (rest : GoStr) :
    ∃ u, (ParseRedisClientRequest (arrayStartByte :: rest)).finalBuffer
      = integerStartByte :: u := by
  unfold ParseRedisClientRequest parseRCRLoop
  simp only [parseRCRLoopF]
  rw [take_getNext_cons]
  obtain ⟨u, hu⟩ := parseArray_star_buffer_shape (rest.take (findStar rest))
  split
  · next p buf hpa =>
    rw [hpa] at hu
    simp only [PRes.buffer] at hu
    subst hu
    exact ⟨u ++ (arrayStartByte :: rest).drop
      (getNextArrayStartByteIndex (arrayStartByte :: rest)), by simp⟩
  · next command read buf hpa =>
    rw [hpa] at hu
    simp only [PRes.buffer] at hu
    subst hu
    split
    · next hr =>
      obtain ⟨w, hw⟩ := parseRCRLoopF_buffer_extends (arrayStartByte :: rest).length
        ((arrayStartByte :: rest).drop read) ([] ++ [command]) (0 + read)
        ([] ++ (integerStartByte :: u).take read)
      rw [hw]
      obtain ⟨m, hm⟩ : ∃ m, read = m + 1 := ⟨read - 1, by omega⟩
      subst hm
      exact ⟨u.take m ++ w, by simp⟩
    · exact ⟨u ++ (arrayStartByte :: rest).drop
        (getNextArrayStartByteIndex (arrayStartByte :: rest)), by simp⟩

/-- C10 (amended): decoding is not read-only on its input for Array frames —
for every input beginning with the `*` tag, the parser overwrites that
leading tag byte with `:` before parsing the length, so after
`ParseRedisClientRequest` returns, the caller's buffer starts with `:` and
differs from the bytes originally received.  (For a top-level input
beginning with the `$` tag, by contrast, the start-symbol assertion faults
BEFORE the overwrite and the buffer is unchanged — the `$`→`:` overwrite
happens only for bulk-string elements inside an Array.) -/
theorem array_leading_input_buffer_mutated (bytes rest : GoStr)
    (h : bytes = arrayStartByte :: rest) :
    (ParseRedisClientRequest bytes).finalBuffer.head? = some integerStartByte
    ∧ (ParseRedisClientRequest bytes).finalBuffer ≠ bytes := by
  subst h
  obtain ⟨u, hu⟩ := rcr_star_final_buffer_shape rest
  rw [hu]
  refine ⟨rfl, ?_⟩
  intro hEq
  simp [integerStartByte, arrayStartByte] at hEq

/-- C10 witness: the amended theorem applied at a concrete input. -/
theorem buffer_mutation_witness :
    (ParseRedisClientRequest (gostr "*1\r\n:5\r\n")).finalBuffer.head? = some integerStartByte
    ∧ (ParseRedisClientRequest (gostr "*1\r\n:5\r\n")).finalBuffer ≠ gostr "*1\r\n:5\r\n" :=
  array_leading_input_buffer_mutated (gostr "*1\r\n:5\r\n") (gostr "1\r\n:5\r\n") (by decide)

/-- A block of filled slots followed by nil slots is front-filled. -/
theorem frontFilled_filled_append (xs : List (Option IDataType)) (k : Nat)
    (hsome : ∀ o ∈ xs, o.isSome) :
    frontFilled (xs ++ List.replicate k none) = true := by
  induction xs with
  | nil =>
    cases k with
    | zero => rfl
    | succ m => simp [frontFilled, List.replicate_succ, List.all_eq_true]
  | cons o rest ih =>
    cases o with
    | none => exact absurd (hsome none (by simp)) (by simp)
    | some v =>
      simpa [frontFilled] using ih (fun o ho => hsome o (by simp [ho]))

/-- Setting the slot just past a filled block turns it into a longer filled
block followed by one fewer nil slot. -/
theorem set_after_filled (xs : List (Option IDataType)) (m : Nat) (s : IDataType) :
    (xs ++ List.replicate (m + 1) none).set xs.length (some s)
      = (xs ++ [some s]) ++ List.replicate m none := by
  induction xs with
  | nil => simp [List.replicate_succ]
  | cons o rest ih => simp [List.set, ih]

/-- The element loop preserves the slot count and, starting from a state
whose slots are a filled block followed by nil slots (with the counter at
the boundary), every successful completion is front-filled. -/
theorem parseArrayLoopF_fill (fuel : Nat) :
    ∀ (rem : GoStr) (arr : RArray) (c : Nat) (d : Int) (pr : GoStr) (br : Nat)
      (arr' : RArray) (r' : Nat) (b' : GoStr),
      parseArrayLoopF fuel rem arr c d pr br = .ok arr' r' b' →
      (∃ xs k, arr.items = xs ++ List.replicate k none
        ∧ (∀ o ∈ xs, o.isSome) ∧ xs.length = c) →
      frontFilled arr'.items = true ∧ arr'.items.length = arr.items.length := by
  induction fuel with
  | zero =>
    intro rem arr c d pr br arr' r' b' h hinv
    exact absurd h (by simp [parseArrayLoopF])
  | succ fuel ih =>
    intro rem arr c d pr br arr' r' b' h hinv
    cases rem with
    | nil =>
      simp only [parseArrayLoopF] at h
      cases h
      obtain ⟨xs, k, hitems, hsome, hlen⟩ := hinv
      exact ⟨by rw [hitems]; exact frontFilled_filled_append xs k hsome, rfl⟩
    | cons first rest0 =>
      simp only [parseArrayLoopF] at h
      split at h
      · cases h
      · next hov =>
        split at h
        · cases h
        · next s r b heq =>
          split at h
          · next hrl =>
            obtain ⟨xs, k, hitems, hsome, hlen⟩ := hinv
            have hcl : c < arr.items.length := by
              simpa [RArray.GetNumberOfItems] using hov
            have hk : 1 ≤ k := by
              rw [hitems] at hcl
              simp only [List.length_append, List.length_replicate] at hcl
              omega
            obtain ⟨m, hm⟩ : ∃ m, k = m + 1 := ⟨k - 1, by omega⟩
            have hstep : (arr.SetItemAtIndex c s).items
                = (xs ++ [some s]) ++ List.replicate m none := by
              simp only [RArray.SetItemAtIndex, hitems, hm]
              rw [← hlen]
              exact set_after_filled xs m s
            obtain ⟨h1, h2⟩ := ih _ _ _ _ _ _ _ _ _ h
              ⟨xs ++ [some s], m, hstep, by
                intro o ho
                rcases List.mem_append.mp ho with hx | hx
                · exact hsome o hx
                · simp at hx; simp [hx], by simp [hlen]⟩
            refine ⟨h1, ?_⟩
            rw [h2]
            simp [RArray.SetItemAtIndex]
          · cases h

/-- C5 (amended): for every input on which Array decoding completes without
a decode error, the decoded values form a front-filled prefix of the
Array's slots — slots after the first missing element are all uninitialised
(so the Array contains exactly N decoded values only when the input
actually supplies N elements); the Array always has exactly the declared
number of slots; and an input presenting more elements than the declared
capacity is a decode error (the loop panics as soon as the counter reaches
the capacity with input remaining). -/
theorem array_slots_front_filled_and_overflow_errors :
    (∀ (bytes : GoStr) (arr : RArray) (read : Nat) (buf : GoStr),
      parseArray bytes = .ok arr read buf → frontFilled arr.items = true)
    ∧ (∀ (b0 : Nat) (rest b1 : GoStr) (n : Int) (nr : Nat) (arr : RArray)
        (read : Nat) (buf : GoStr),
      parseIntegers (integerStartByte :: rest) = .ok n nr b1 →
      parseArray (b0 :: rest) = .ok arr read buf →
      arr.items.length = n.toNat)
    ∧ (∀ (rem : GoStr) (arr : RArray) (c : Nat) (d : Int) (pr : GoStr) (br : Nat),
      rem ≠ [] → arr.GetNumberOfItems ≤ c →
      parseArrayLoop rem arr c d pr br
        = .panicked (arrayOverflowPanic c d) (pr ++ rem)) := by
  refine ⟨?_, ?_, ?_⟩
  · intro bytes arr read buf h
    cases bytes with
    | nil => exact absurd h (by simp [parseArray])
    | cons b0 rest =>
      simp only [parseArray] at h
      split at h
      · cases h
      · split at h
        · cases h
        · next n nr b1 hpi =>
          split at h
          · cases h
          · next arr0 hna =>
            simp only [parseArrayLoop] at h
            have : arr0.items = [] ++ List.replicate arr0.items.length none := by
              simp only [NewArray] at hna
              split at hna
              · cases hna
              · cases hna
                simp
            exact (parseArrayLoopF_fill _ _ _ _ _ _ _ _ _ _ h
              ⟨[], arr0.items.length, this, by simp, by simp⟩).1
  · intro b0 rest b1 n nr arr read buf hpi h
    cases hb : decide (b0 = arrayStartByte) with
    | false =>
      have hb' : ¬b0 = arrayStartByte := of_decide_eq_false hb
      exact absurd h (by simp [parseArray, hb'])
    | true =>
      have hb' : b0 = arrayStartByte := of_decide_eq_true hb
      subst hb'
      simp only [parseArray] at h
      rw [if_neg (by simp)] at h
      rw [hpi] at h
      simp only [NewArray] at h
      split at h
      · cases h
      · next arr0 hn =>
        have harr0 : arr0.items = List.replicate n.toNat none := by
          split at hn
          · cases hn
          · cases hn; rfl
        simp only [parseArrayLoop] at h
        have hlen := (parseArrayLoopF_fill _ _ _ _ _ _ _ _ _ _ h
          ⟨[], n.toNat, by simp [harr0], by simp, by simp⟩).2
        rw [hlen, harr0]
        simp
  · intro rem arr c d pr br hrem hov
    cases rem with
    | nil => exact absurd rfl hrem
    | cons first rest0 =>
      simp only [parseArrayLoop, parseArrayLoopF]
      rw [if_pos hov]

/-- Every byte of a decimal rendering is a digit byte. -/
theorem natToDecimalAux_digits (fuel : Nat) :
    ∀ n, n < fuel → ∀ c ∈ natToDecimalAux fuel n, 48 ≤ c ∧ c ≤ 57 := by
  induction fuel with
  | zero => intro n h; exact absurd h (Nat.not_lt_zero n)
  | succ fuel ih =>
    intro n h c hc
    simp only [natToDecimalAux] at hc
    split at hc
    · next h10 =>
      simp only [List.mem_singleton] at hc
      subst hc
      omega
    · next h10 =>
      rcases List.mem_append.mp hc with h1 | h1
      · have hd : n / 10 < n := Nat.div_lt_self (by omega) (by omega)
        exact ih (n / 10) (by omega) c h1
      · simp only [List.mem_singleton] at h1
        subst h1
        omega

/-- Every byte of `natToDecimal n` is a digit byte. -/
theorem natToDecimal_digits (n : Nat) : ∀ c ∈ natToDecimal n, 48 ≤ c ∧ c ≤ 57 :=
  natToDecimalAux_digits (n + 1) n (by omega)

/-- A decimal rendering is never empty. -/
theorem natToDecimal_ne_nil (n : Nat) : natToDecimal n ≠ [] := by
  simp only [natToDecimal, natToDecimalAux]
  split <;> simp

/-- Digit parsing distributes over append. -/
theorem parseDigitsAux_append (xs ys : GoStr) (acc : Nat) :
    parseDigitsAux (xs ++ ys) acc
      = match parseDigitsAux xs acc with
        | some a => parseDigitsAux ys a
        | none => none := by
  induction xs generalizing acc with
  | nil => simp [parseDigitsAux]
  | cons c rest ih =>
    cases hdv : digitVal c with
    | none => simp [parseDigitsAux, hdv]
    | some d => simp [parseDigitsAux, hdv, ih]

/-- Parsing back a decimal rendering recovers the number (with the
accumulator scaled by the digit count). -/
theorem parseDigitsAux_natToDecimalAux (fuel : Nat) :
    ∀ n acc, n < fuel →
      parseDigitsAux (natToDecimalAux fuel n) acc
        = some (acc * 10 ^ (natToDecimalAux fuel n).length + n) := by
  induction fuel with
  | zero => intro n acc h; exact absurd h (Nat.not_lt_zero n)
  | succ fuel ih =>
    intro n acc h
    by_cases h10 : n < 10
    · simp only [natToDecimalAux, if_pos h10, parseDigitsAux, digitVal]
      rw [if_pos (by omega)]
      simp only [parseDigitsAux, List.length_singleton, pow_one]
      congr 1
      omega
    · simp only [natToDecimalAux, if_neg h10]
      rw [parseDigitsAux_append]
      have hdlt : n / 10 < n := Nat.div_lt_self (by omega) (by omega)
      rw [ih (n / 10) acc (by omega)]
      simp only [parseDigitsAux, digitVal]
      rw [if_pos (by omega)]
      simp only [parseDigitsAux, List.length_append, List.length_singleton]
      congr 1
      have h48 : 48 + n % 10 - 48 = n % 10 := by omega
      rw [h48, pow_succ]
      have hmod : 10 * (n / 10) + n % 10 = n := Nat.div_add_mod n 10
      ring_nf
      ring_nf at hmod
      omega

/-- `strconv.Atoi` applied to the decimal rendering of an in-range natural
number recovers it. -/
theorem goAtoi_natToDecimal (n : Nat) (h : (n : Int) ≤ 2 ^ 63 - 1) :
    goAtoi (natToDecimal n) = some (n : Int) := by
  have hpd : parseDigitsAux (natToDecimal n) 0 = some n := by
    have := parseDigitsAux_natToDecimalAux (n + 1) n 0 (by omega)
    simpa [natToDecimal] using this
  cases hnd : natToDecimal n with
  | nil => exact absurd hnd (natToDecimal_ne_nil n)
  | cons c rest =>
    have hc := natToDecimal_digits n c (by rw [hnd]; simp)
    rw [hnd] at hpd
    simp only [goAtoi]
    rw [if_neg (by omega), if_neg (by omega)]
    simp only [hpd]
    rw [if_neg (by omega)]
    simp

/-- `string(c)` of an ASCII byte is that byte alone. -/
theorem goRuneToString_ascii {c : Nat} (h : c < 128) : goRuneToString c = [c] := by
  simp only [goRuneToString]
  rw [if_neg (by omega), if_neg (by omega), if_pos h]

/-- `readLoop` over a line of ASCII non-CR-non-LF bytes followed by CRLF
returns the line unchanged and counts the line plus the two terminators
(for a byte ≥ 128 the string would instead grow by two bytes). -/
theorem readLoop_crlf_free (xs t : GoStr)
    (h : ∀ c ∈ xs, c < 128 ∧ c ≠ crByte ∧ c ≠ nlByte) :
    readLoop (xs ++ crByte :: nlByte :: t) = (xs, xs.length + 2) := by
  induction xs with
  | nil => simp [readLoop, crByte, nlByte]
  | cons c rest ih =>
    have hc := h c (by simp)
    have hrest : ∀ c ∈ rest, c < 128 ∧ c ≠ crByte ∧ c ≠ nlByte :=
      fun c hc2 => h c (by simp [hc2])
    simp [readLoop, hc.2.1, hc.2.2, goRuneToString_ascii hc.1, ih hrest]

/-- Digit bytes are ASCII and neither CR nor LF. -/
theorem natToDecimal_ascii_crlf_free (n : Nat) :
    ∀ c ∈ natToDecimal n, c < 128 ∧ c ≠ crByte ∧ c ≠ nlByte := by
  intro c hc
  have := natToDecimal_digits n c hc
  refine ⟨by omega, ?_, ?_⟩ <;> (simp only [crByte, nlByte]; omega)

/-- `parseIntegers` on a `:`-tagged decimal header line: the parsed value,
the bytes read (tag + digits + CRLF) and the untouched buffer. -/
theorem parseIntegers_header (digits tail2 : GoStr) (n : Nat)
    (hd : goAtoi digits = some (n : Int))
    (hfree : ∀ c ∈ digits, c < 128 ∧ c ≠ crByte ∧ c ≠ nlByte) :
    parseIntegers (integerStartByte :: (digits ++ crByte :: nlByte :: tail2))
      = .ok (n : Int) (digits.length + 3)
          (integerStartByte :: (digits ++ crByte :: nlByte :: tail2)) := by
  simp only [parseIntegers]
  rw [if_neg (by simp)]
  have hr : readUntilCRLF (integerStartByte :: (digits ++ crByte :: nlByte :: tail2)) true
      = (digits, digits.length + 3) := by
    simp only [readUntilCRLF]
    rw [if_pos (by simp)]
    simp [readLoop_crlf_free digits tail2 hfree]
  rw [hr]
  simp only [hd]

/-- C4 (amended): for every payload `p` of ASCII bytes (all < 128) with
`1 ≤ len(p) ≤ MAX_BULK` that contains neither CR nor LF, decoding the frame
`$` ++ decimal(len p) ++ CRLF ++ p ++ CRLF yields a non-null `BulkString`
whose value equals `p` exactly; and a frame whose body length after
CRLF-stripping differs from the declared length is a decode error.  Both
restrictions are forced — decoding is not binary-safe: `readUntilCRLF`
strips every CR and stops at the first LF, and its `str += string(c)`
UTF-8-encodes every byte ≥ 128 into two bytes so the length check fails —
see the counterexample `bulk_unsafe_payload_decode_fails` for an LF payload
and a byte-200 payload. -/
theorem bulk_roundtrip_and_length_mismatch :
    (∀ p : GoStr, 1 ≤ p.length → p.length ≤ MaxBulkSizeLength →
      (∀ c ∈ p, c < 128 ∧ c ≠ crByte ∧ c ≠ nlByte) →
      parseBulkString (bulkStringStartByte ::
          (natToDecimal p.length ++ crByte :: nlByte :: (p ++ [crByte, nlByte])))
        = .ok ⟨false, p⟩ ((natToDecimal p.length).length + p.length + 5)
            (integerStartByte ::
              (natToDecimal p.length ++ crByte :: nlByte :: (p ++ [crByte, nlByte]))))
    ∧ (∀ (L : Nat) (rest : GoStr), 1 ≤ L → L ≤ MaxBulkSizeLength →
      (readUntilCRLF rest false).1.length ≠ L →
      (parseBulkString (bulkStringStartByte ::
          (natToDecimal L ++ crByte :: nlByte :: rest))).isOk = false) := by
  constructor
  · intro p h1 h2 h3
    have hatoi : goAtoi (natToDecimal p.length) = some (p.length : Int) :=
      goAtoi_natToDecimal p.length (by simp only [MaxBulkSizeLength] at h2; omega)
    have hpi := parseIntegers_header (natToDecimal p.length) (p ++ [crByte, nlByte])
      p.length hatoi (natToDecimal_ascii_crlf_free p.length)
    simp only [parseBulkString]
    rw [if_neg (by simp)]
    simp only [hpi]
    rw [if_neg (by exact_mod_cast not_lt.mpr h2), if_neg (by omega), if_neg (by omega),
      if_neg (by omega)]
    have hdrop : (integerStartByte ::
        (natToDecimal p.length ++ crByte :: nlByte :: (p ++ [crByte, nlByte]))).drop
          ((natToDecimal p.length).length + 3) = p ++ [crByte, nlByte] := by
      have hsplit : integerStartByte ::
          (natToDecimal p.length ++ crByte :: nlByte :: (p ++ [crByte, nlByte]))
          = (integerStartByte :: (natToDecimal p.length ++ [crByte, nlByte]))
            ++ (p ++ [crByte, nlByte]) := by simp
      have hlen2 : (integerStartByte :: (natToDecimal p.length ++ [crByte, nlByte])).length
          = (natToDecimal p.length).length + 3 := by simp
      rw [hsplit, ← hlen2]
      exact List.drop_left _ _
    rw [hdrop]
    have hbody : readUntilCRLF (p ++ [crByte, nlByte]) false = (p, p.length + 2) := by
      simp only [readUntilCRLF]
      rw [if_neg (by simp)]
      exact readLoop_crlf_free p [] h3
    rw [hbody]
    rw [if_neg (by simp)]
    simp only [NewBulkString]
    rw [if_neg (by omega)]
    simp only [PRes.ok.injEq]
    refine ⟨by trivial, by omega, by trivial⟩
  · intro L rest h1 h2 hne
    have hatoi : goAtoi (natToDecimal L) = some (L : Int) :=
      goAtoi_natToDecimal L (by simp only [MaxBulkSizeLength] at h2; omega)
    have hpi := parseIntegers_header (natToDecimal L) rest L hatoi (natToDecimal_ascii_crlf_free L)
    simp only [parseBulkString]
    rw [if_neg (by simp)]
    simp only [hpi]
    rw [if_neg (by exact_mod_cast not_lt.mpr h2), if_neg (by omega), if_neg (by omega),
      if_neg (by omega)]
    have hdrop : (integerStartByte :: (natToDecimal L ++ crByte :: nlByte :: rest)).drop
        ((natToDecimal L).length + 3) = rest := by
      have hsplit : integerStartByte :: (natToDecimal L ++ crByte :: nlByte :: rest)
          = (integerStartByte :: (natToDecimal L ++ [crByte, nlByte])) ++ rest := by simp
      have hlen2 : (integerStartByte :: (natToDecimal L ++ [crByte, nlByte])).length
          = (natToDecimal L).length + 3 := by simp
      rw [hsplit, ← hlen2]
      exact List.drop_left _ _
    rw [hdrop]
    rw [if_pos (by exact_mod_cast hne)]
    rfl

/-- C4 witness: the amended theorem applied at concrete inputs. -/
theorem bulk_roundtrip_witness :
    parseBulkString (gostr "$1\r\na\r\n") = .ok ⟨false, gostr "a"⟩ 7 (gostr ":1\r\na\r\n")
    ∧ (parseBulkString (gostr "$2\r\na\r\n")).isOk = false := by
  constructor
  · have h := bulk_roundtrip_and_length_mismatch.1 (gostr "a") (by decide) (by decide)
      (by decide)
    have heq : bulkStringStartByte :: (natToDecimal (gostr "a").length
        ++ crByte :: nlByte :: (gostr "a" ++ [crByte, nlByte])) = gostr "$1\r\na\r\n" := by
      decide
    rw [heq] at h
    rw [h]
    decide
  · have h := bulk_roundtrip_and_length_mismatch.2 2 (gostr "a\r\n") (by decide) (by decide)
      (by decide)
    have heq : bulkStringStartByte :: (natToDecimal 2 ++ crByte :: nlByte :: gostr "a\r\n")
        = gostr "$2\r\na\r\n" := by decide
    rw [heq] at h
    exact h

/-- C5 witness: the amended theorem applied at concrete inputs — the
under-supplied `*2\r\n:1\r\n` parse is front-filled with 2 slots, and a
concrete loop state past capacity yields the overflow panic. -/
theorem array_slots_witness :
    frontFilled (RArray.mk [some (.rint 1), none]).items = true
    ∧ (RArray.mk [some (.rint 1), none]).items.length = (2 : Int).toNat
    ∧ parseArrayLoop [stringStartByte] ⟨[some (.rint 1)]⟩ 1 1 [] 4
        = .panicked (arrayOverflowPanic 1 1) ([] ++ [stringStartByte]) :=
  ⟨array_slots_front_filled_and_overflow_errors.1 (gostr "*2\r\n:1\r\n")
      ⟨[some (.rint 1), none]⟩ 8 (gostr ":2\r\n:1\r\n") (by decide),
   array_slots_front_filled_and_overflow_errors.2.1 42 (gostr "2\r\n:1\r\n")
      (gostr ":2\r\n:1\r\n") 2 4 ⟨[some (.rint 1), none]⟩ 8 (gostr ":2\r\n:1\r\n")
      (by decide) (by decide),
   array_slots_front_filled_and_overflow_errors.2.2 [stringStartByte] ⟨[some (.rint 1)]⟩
      1 1 [] 4 (by decide) (by decide)⟩
